import Mathlib

/-!
Verification development for the rust-irc client library.

The Rust sources are embedded shallowly: strings are `String` (lists of
characters), Rust's `HashMap` is an association list, fallible paths
(`unwrap`, `expect`, `panic!`) are `Option`-valued with `none` marking a
process abort, and the reader/dispatch loops are folds over the sequence of
events they would consume.  Regex-based helpers are embedded by their exact
backtracking behaviour on the concrete patterns the code uses; character
classes (`\s`, `\w`, `.`) are modelled over ASCII, which covers every string
the protocol layer handles.
-/

set_option maxRecDepth 4096

/-- ASCII model of the regex class `\s` (and of Rust whitespace trimming). -/
def isWsChar (c : Char) : Bool :=
  c = ' ' || c = '\t' || c = '\n' || c = '\x0B' || c = '\x0C' || c = '\r'

/-- ASCII model of the regex word class `\w`. -/
def isWordChar (c : Char) : Bool :=
  c.isAlphanum || c = '_'

/-! ### ctcp.rs: the two substitution tables and their quote/dequote passes -/

/-- One pass of Rust `str::replace` for a single-character pattern. -/
def replace1 (a : Char) (rep : List Char) : List Char → List Char
  | [] => []
  | c :: rest => if c = a then rep ++ replace1 a rep rest else c :: replace1 a rep rest

/-- One pass of Rust `str::replace` for a two-character pattern: leftmost,
non-overlapping occurrences are rewritten in a single scan. -/
def replace2 (a b : Char) (rep : List Char) : List Char → List Char
  | [] => []
  | [c] => [c]
  | c :: d :: rest =>
    if c = a ∧ d = b then rep ++ replace2 a b rep rest
    else c :: replace2 a b rep (d :: rest)

/-- Rust `str::replace`, restricted to the one- and two-character patterns
appearing in `M_CNVRT` and `X_CNVRT` (no other patterns occur in the code). -/
def rustReplace (pat rep s : String) : String :=
  match pat.data with
  | [a] => ⟨replace1 a rep.data s.data⟩
  | [a, b] => ⟨replace2 a b rep.data s.data⟩
  | _ => s

/-- The CTCP tag delimiter byte. -/
def X_DELIM : Char := '\x01'

/-- The low-level conversion table of ctcp.rs. -/
def M_CNVRT : List (String × String) :=
  [("\x14", "\x14\x14"), ("\x00", "\x140"), ("\n", "\x14n"), ("\r", "\x14r")]

/-- The CTCP-level conversion table of ctcp.rs. -/
def X_CNVRT : List (String × String) :=
  [("\\", "\\\\"), ("\x01", "\\a")]

/-- `low_level_quote`: each table entry applied as a full replace pass, in order. -/
def low_level_quote (trail : String) : String :=
  M_CNVRT.foldl (fun nt cv => rustReplace cv.1 cv.2 nt) trail

/-- `low_level_dequote`: each table entry reversed as a full replace pass, in
table order (the sentinel-doubling entry is reversed first). -/
def low_level_dequote (trail : String) : String :=
  M_CNVRT.foldl (fun nt cv => rustReplace cv.2 cv.1 nt) trail

/-- `ctcp_quote`. -/
def ctcp_quote (trail : String) : String :=
  X_CNVRT.foldl (fun nt cv => rustReplace cv.1 cv.2 nt) trail

/-- `ctcp_dequote`. -/
def ctcp_dequote (trail : String) : String :=
  X_CNVRT.foldl (fun nt cv => rustReplace cv.2 cv.1 nt) trail

/-! ### message.rs: data model and the parsing regexes -/

/-- `Source` of an IRC message. -/
inductive Source where
  | Sender (s : String)
  | None
deriving DecidableEq

/-- `Direction` of an IRC message. -/
inductive Direction where
  | Incoming
  | Outgoing
deriving DecidableEq

/-- The `Message` struct. -/
structure Message where
  dir : Direction
  source : Source
  code : String
  params : String
  raw : String
deriving DecidableEq

/-- `raw_from_data`: the fixed wire-formatting rule. -/
def raw_from_data (source : Source) (code params : String) : String :=
  match source with
  | Source.Sender snd => ":" ++ snd ++ " " ++ code ++ " " ++ params
  | Source.None => code ++ " " ++ params

/-- `Message::new` (direction always Outgoing). -/
def Message.new (source : Source) (code params : String) : Message :=
  { dir := Direction.Outgoing, source := source, code := code, params := params,
    raw := raw_from_data source code params }

/-- Tail of the parse regex, `\s+(.*)\r?$`: only the maximal whitespace run can
satisfy `\s+` (a shorter run leaves a whitespace character for `.`-matching to
start on, which never helps `$`), and the greedy `.*` then consumes the whole
remainder unless it contains a newline, which `.` cannot match. -/
def tailMatch (rest : List Char) : Option (List Char) :=
  let ws := rest.takeWhile isWsChar
  let body := rest.dropWhile isWsChar
  if ws.isEmpty then none
  else if body.contains '\n' then none
  else some body

/-- `(\S+)\s+(.*)\r?$`: only the maximal non-whitespace token is viable for the
greedy `\S+` (giving back a character makes `\s+` fail on it at once). -/
def codeMatch (rest : List Char) : Option (List Char × List Char) :=
  let tok := rest.takeWhile (fun c => !isWsChar c)
  if tok.isEmpty then none
  else (tailMatch (rest.drop tok.length)).map (fun body => (tok, body))

/-- `\s*(\S+)\s+(.*)\r?$`: the greedy `\s*` must take the maximal run, any
shorter choice leaves `\S+` starting on whitespace. -/
def spacesCode (rest : List Char) : Option (List Char × List Char) :=
  codeMatch (rest.dropWhile isWsChar)

/-- Backtracking over the optional greedy prefix capture `(:\S+)?`: the run
after the colon is given back one character at a time, longest first. `s` is
the whole line, `run` the maximal non-whitespace run after the leading colon,
and the counter is the number of its characters still claimed by the capture. -/
def tryPfx (s run : List Char) : Nat → Option (List Char × List Char × List Char)
  | 0 => none
  | k + 1 =>
    match spacesCode (s.drop (1 + (k + 1))) with
    | some (cod, prm) => some (':' :: run.take (k + 1), cod, prm)
    | none => tryPfx s run k

/-- The full match of `^(:\S+)?\s*(\S+)\s+(.*)\r?$` with leftmost-first
backtracking semantics, returning the three captures. -/
def parseCaps (s : List Char) : Option (Option (List Char) × List Char × List Char) :=
  match s with
  | ':' :: rest0 =>
    let run := rest0.takeWhile (fun c => !isWsChar c)
    match tryPfx s run run.length with
    | some (pre, cod, prm) => some (some pre, cod, prm)
    | none => (spacesCode s).map (fun cp => (none, cp.1, cp.2))
  | _ => (spacesCode s).map (fun cp => (none, cp.1, cp.2))

/-- `Message::parse`: on a successful regex match the struct keeps the original
line verbatim in `raw`. -/
def Message.parse (msg : String) : Option Message :=
  match parseCaps msg.data with
  | some (src, cod, prm) =>
    some { dir := Direction.Incoming,
           source := match src with
                     | some pre => Source.Sender ⟨pre⟩
                     | none => Source.None,
           code := ⟨cod⟩, params := ⟨prm⟩, raw := msg }
  | none => none

/-- `Message::privmsg`. -/
def Message.privmsg (target message : String) : Message :=
  { dir := Direction.Outgoing, source := Source.None, code := "PRIVMSG",
    params := target ++ " :" ++ message,
    raw := raw_from_data Source.None "PRIVMSG" (target ++ " :" ++ message) }

/-- `Message::pong`. -/
def Message.pong (m : Message) : Message :=
  { dir := Direction.Outgoing, source := Source.None, code := "PONG",
    params := m.params, raw := raw_from_data Source.None "PONG" m.params }

/-- `Message::is_message`. -/
def Message.is_message (m : Message) : Bool :=
  m.code = "PRIVMSG" || m.code = "NOTICE"

/-- The token stream produced by iterating the parameter regex `(:.*|\S+)`:
whitespace is skipped, a token starting with `:` consumes the rest of the line
(up to a newline, which `.` cannot match), any other token is a maximal
non-whitespace run. -/
def paramToks (fuel : Nat) (l : List Char) : List (List Char) :=
  match fuel, l with
  | 0, _ => []
  | _ + 1, [] => []
  | f + 1, c :: cs =>
    if isWsChar c then paramToks f cs
    else if c = ':' then
      (c :: cs.takeWhile (fun x => x ≠ '\n')) :: paramToks f (cs.dropWhile (fun x => x ≠ '\n'))
    else
      (c :: cs.takeWhile (fun x => !isWsChar x)) :: paramToks f (cs.dropWhile (fun x => !isWsChar x))

/-- `Message::param` (1-based; the loop counter starts at 1, so index 0 never
matches and yields none). -/
def Message.param (m : Message) (num : Nat) : Option String :=
  if num = 0 then none
  else ((paramToks m.params.data.length m.params.data).get? (num - 1)).map (fun t => (⟨t⟩ : String))

/-- `Message::trailing`: regex `:(.*)` — everything after the first colon, up
to a newline. -/
def findColonRest : List Char → Option (List Char)
  | [] => none
  | ':' :: rest => some (rest.takeWhile (fun x => x ≠ '\n'))
  | _ :: rest => findColonRest rest

/-- `Message::trailing`. -/
def Message.trailing (m : Message) : Option String :=
  (findColonRest m.params.data).map (fun t => (⟨t⟩ : String))

/-- The scan performed by the nick regex `:([\w]+?)`: the leftmost position
where a colon is followed by a word character matches, and the lazy `+?`
captures exactly one character. -/
def nickScan : List Char → Option String
  | [] => none
  | [_] => none
  | a :: b :: rest =>
    if a = ':' ∧ isWordChar b then some ⟨[b]⟩ else nickScan (b :: rest)

/-- `Message::nick`. -/
def Message.nick (m : Message) : Option String :=
  match m.source with
  | Source.Sender s => nickScan s.data
  | Source.None => none

/-- The first match arm of `Message::target`. -/
def targetCodes : List String :=
  ["JOIN", "PART", "MODE", "TOPIC", "INVITE", "PRIVMSG", "NOTICE",
   "WHOIS", "WHOWAS", "KILL", "PING", "PONG", "SUMMON", "ISON"]

/-- `Message::target`: note the wildcard arm of the source also returns
`param(1)`. -/
def Message.target (m : Message) : Option String :=
  if m.code ∈ targetCodes then m.param 1
  else if m.code = "KICK" then m.param 2
  else m.param 1

/-- `Message::is_public`, with `none` for the `expect("bad message")` panic
when the target is absent. -/
def Message.is_publicP (m : Message) : Option Bool :=
  if !m.is_message then some false
  else match m.target with
       | some t => some (match t.data with | '#' :: _ => true | _ => false)
       | none => none

/-! ### info.rs: client info and the channel name lists -/

/-- Lookup in the association-list model of `HashMap::get` / `get_mut`. -/
def alFind (k : String) : List (String × List String) → Option (List String)
  | [] => none
  | (k', v) :: rest => if k' = k then some v else alFind k rest

/-- Replace the value bound to a present key (mutation through `get_mut`). -/
def alUpdate (k : String) (v : List String) : List (String × List String) → List (String × List String)
  | [] => []
  | (k', v') :: rest => if k' = k then (k', v) :: rest else (k', v') :: alUpdate k v rest

/-- `HashMap::remove`. -/
def alErase (k : String) : List (String × List String) → List (String × List String)
  | [] => []
  | (k', v') :: rest => if k' = k then rest else (k', v') :: alErase k rest

/-- `HashMap::insert` (replaces any existing binding). -/
def alInsert (k : String) (v : List String) (l : List (String × List String)) : List (String × List String) :=
  if (alFind k l).isSome then alUpdate k v l else l ++ [(k, v)]

/-- `in_vec`: index of the first occurrence of an element, if any. -/
def in_vec : List String → String → Option Nat
  | [], _ => none
  | x :: rest, el => if x = el then some 0 else (in_vec rest el).map (· + 1)

/-- ASCII model of `str::trim` (leading and trailing whitespace removed). -/
def trimChars (l : List Char) : List Char :=
  ((l.dropWhile isWsChar).reverse.dropWhile isWsChar).reverse

/-- ASCII model of `str::trim_right`. -/
def trimRightStr (s : String) : String :=
  ⟨(s.data.reverse.dropWhile isWsChar).reverse⟩

/-- `strip_colon`: trim whitespace, then drop one leading colon. -/
def strip_colon (s : String) : String :=
  let ss := trimChars s.data
  match ss with
  | ':' :: rest => ⟨rest⟩
  | _ => ⟨ss⟩

/-- Rust `split_str(" ")`: split on every space, keeping empty pieces. -/
def splitSp : List Char → List (List Char)
  | [] => [[]]
  | c :: rest =>
    if c = ' ' then [] :: splitSp rest
    else match splitSp rest with
         | [] => [[c]]
         | t :: ts => (c :: t) :: ts

/-- The `IrcInfo` struct; `names` is the channel-to-member-list map and
`prep_names` the staging buffer filled by 353 replies. -/
structure IrcInfo where
  nick_name : String
  user_name : String
  real_name : String
  channels : List String
  names : List (String × List String)
  prep_names : List String
deriving DecidableEq

/-- `IrcInfo::gen`. -/
def IrcInfo.gen (nick user real : String) (chans : List String) : IrcInfo :=
  { nick_name := nick, user_name := user, real_name := real,
    channels := chans, names := [], prep_names := [] }

/-- `IrcInfo::get_channel_names`. -/
def IrcInfo.get_channel_names (i : IrcInfo) (chan : String) : Option (List String) :=
  alFind chan i.names

/-- `IrcInfo::add_to_channel`: push the nick onto the channel's list when the
list exists, warn-and-ignore otherwise.  No membership check is made. -/
def IrcInfo.add_to_channel (i : IrcInfo) (ch ni : String) : IrcInfo :=
  let chan := strip_colon ch
  let nick := strip_colon ni
  match alFind chan i.names with
  | some l => { i with names := alUpdate chan (l ++ [nick]) i.names }
  | none => i

/-- `IrcInfo::remove_from_channel`: remove the first occurrence of the nick if
present; a missing list or absent nick leaves the info unchanged. -/
def IrcInfo.remove_from_channel (i : IrcInfo) (ch ni : String) : IrcInfo :=
  let chan := strip_colon ch
  let nick := strip_colon ni
  match alFind chan i.names with
  | none => i
  | some l =>
    match in_vec l nick with
    | some idx => { i with names := alUpdate chan (l.eraseIdx idx) i.names }
    | none => i

/-- `IrcInfo::drop_channel_names`: remove the binding when it exists. -/
def IrcInfo.drop_channel_names (i : IrcInfo) (ch : String) : IrcInfo :=
  let chan := strip_colon ch
  match alFind chan i.names with
  | some _ => { i with names := alErase chan i.names }
  | none => i

/-- `IrcInfo::prep_channel_names`: push the split trailing text of a 353 reply
onto the staging buffer. -/
def IrcInfo.prep_channel_names (i : IrcInfo) (msg : Message) : IrcInfo :=
  match msg.trailing with
  | none => i
  | some trail =>
    { i with prep_names := i.prep_names ++ (splitSp (trimRightStr trail).data).map (fun t => (⟨t⟩ : String)) }

/-- `IrcInfo::set_channel_names`: drop any existing binding for the channel,
insert the staged list, clear the staging buffer. -/
def IrcInfo.set_channel_names (i : IrcInfo) (ch : String) : IrcInfo :=
  let chan := strip_colon ch
  let i1 := if (alFind chan i.names).isSome then i.drop_channel_names chan else i
  { i1 with names := alInsert chan i.prep_names i1.names, prep_names := [] }

/-- The channel-error numeric codes handled by `update_info`. -/
def chanErrCodes : List String :=
  ["403", "405", "437", "471", "473", "474", "475", "476"]

/-- `IrcInfo::update_info`, with `none` for every `unwrap()` panic on a missing
first parameter. -/
def IrcInfo.update_infoP (i : IrcInfo) (msg : Message) : Option IrcInfo :=
  if msg.code = "NICK" then
    if (msg.nick).getD "" = i.nick_name then
      match msg.param 1 with
      | some p => some { i with nick_name := p }
      | none => none
    else some i
  else if msg.code = "JOIN" then
    match msg.param 1 with
    | none => none
    | some p =>
      if (msg.nick).getD "" = i.nick_name then
        some (if (in_vec i.channels p).isNone then { i with channels := i.channels ++ [p] } else i)
      else some (i.add_to_channel p ((msg.nick).getD ""))
  else if msg.code = "PART" then
    match msg.param 1 with
    | none => none
    | some p =>
      if (msg.nick).getD "" = i.nick_name then
        some (match in_vec i.channels p with
              | some idx => { (i.drop_channel_names p) with channels := i.channels.eraseIdx idx }
              | none => i)
      else some (i.remove_from_channel p ((msg.nick).getD ""))
  else if msg.code ∈ chanErrCodes then
    match msg.param 1 with
    | none => none
    | some p =>
      some (match in_vec i.channels p with
            | some idx => { (i.drop_channel_names p) with channels := i.channels.eraseIdx idx }
            | none => i)
  else some i

/-! ### connection.rs and reader.rs: the event channel and the read loop -/

/-- `ConnEvent`. -/
inductive ConnEvent where
  | Send (line : String)
  | Recv (line : String)
  | Abort (reason : String)
deriving DecidableEq

/-- `ServerConnection::connect`, parameterised by the outcome of the TCP
connect attempt; `none` models the explicit
`panic!("connection failure is not implemented")` taken on a connect error.
On success the returned list is the pre-seeded outgoing queue (a `PASS` line
when a password is configured). -/
def ServerConnection.connectP (pass : String) (tcpOk : Bool) : Option (List ConnEvent) :=
  if tcpOk then
    some (if pass ≠ "" then [ConnEvent.Send ("PASS " ++ pass)] else [])
  else none

/-- `IRC_TRY_SUCCESS`. -/
def IRC_TRY_SUCCESS : Nat := 0

/-- `IRC_TRY_FAILURE`. -/
def IRC_TRY_FAILURE : Nat := 1

/-- `IRC_TRY_LIMIT`. -/
def IRC_TRY_LIMIT : Nat := 5

/-- `IRC_READ_TIMEOUT` (seconds). -/
def IRC_READ_TIMEOUT : Int := 5

/-- `IRC_READ_MULT`. -/
def IRC_READ_MULT : Int := 2

/-- One result produced by `read_line` together with the fate of the channel
send that a successful read triggers (`sendOk = false`: receiver hung up). -/
inductive ReadEvent where
  | okLine (line : String) (sendOk : Bool)
  | eofErr
  | otherErr
deriving DecidableEq

/-- `IrcReader::handle_read_success`: reset the counter on a delivered line,
jump to the try limit when the channel is closed. -/
def handle_read_success (sendOk : Bool) : Nat :=
  if sendOk then IRC_TRY_SUCCESS else IRC_TRY_LIMIT

/-- `IrcReader::handle_read_failure`: EOF jumps to the try limit, any other
error increments the counter. -/
def handle_read_failure (isEof : Bool) (tr : Nat) : Nat :=
  if isEof then IRC_TRY_LIMIT else tr + IRC_TRY_FAILURE

/-- `IrcReader::get_next_try`: `none` breaks the loop; otherwise the first
component records the sleep performed (if any) and the second is the next
timeout. -/
def get_next_try (tr : Nat) (time : Int) : Option (Option Int × Int) :=
  if tr ≥ IRC_TRY_LIMIT then none
  else if tr > IRC_TRY_SUCCESS then some (some time, time * IRC_READ_MULT)
  else some (none, IRC_READ_TIMEOUT)

/-- Observable trace of one reader run: the sleeps performed, the events sent
through the channel, and whether the function returned (`false` means the
modelled stream ended while the loop was still running). -/
structure ReaderRun where
  sleeps : List Int
  events : List ConnEvent
  finished : Bool
deriving DecidableEq

/-- The read loop of `IrcReader::start`, folded over the stream results. -/
def runLoop : Nat → Int → List ReadEvent → ReaderRun
  | _, _, [] => ⟨[], [], false⟩
  | tr, time, ev :: rest =>
    let step : Nat × List ConnEvent :=
      match ev with
      | ReadEvent.okLine l ok =>
        (handle_read_success ok, if ok then [ConnEvent.Recv (trimRightStr l)] else [])
      | ReadEvent.eofErr => (handle_read_failure true tr, [])
      | ReadEvent.otherErr => (handle_read_failure false tr, [])
    match get_next_try step.1 time with
    | none => ⟨[], step.2, true⟩
    | some (sl, t') =>
      let r := runLoop step.1 t' rest
      ⟨sl.toList ++ r.sleeps, step.2 ++ r.events, r.finished⟩

/-- `IrcReader::start`: a failed peer check returns before the loop (emitting
nothing); after the loop exits, one `Abort` is sent through the channel. -/
def reader_start (peerOk : Bool) (evs : List ReadEvent) : ReaderRun :=
  if !peerOk then ⟨[], [], true⟩
  else
    let r := runLoop IRC_TRY_SUCCESS IRC_READ_TIMEOUT evs
    if r.finished then ⟨r.sleeps, r.events ++ [ConnEvent.Abort "irc reader closed"], true⟩
    else r

/-! ### client.rs: the dispatch loop's handling of inbound lines -/

/-- The state local to `Client::start_handler`: the `realinfo` box and the
`registered` flag. -/
structure HandlerState where
  info : IrcInfo
  registered : Bool
deriving DecidableEq

/-- The `NICK` line emitted by `callback_notice`. -/
def regline_nick (i : IrcInfo) : String := "NICK " ++ i.nick_name

/-- The `USER` line emitted by `callback_notice`. -/
def regline_user (i : IrcInfo) : String :=
  "USER " ++ i.user_name ++ " * * :" ++ i.real_name

/-- Whether an output line is one of the two registration lines. -/
def isRegLine (i : IrcInfo) (l : String) : Bool :=
  decide (l = regline_nick i ∨ l = regline_user i)

/-- Whether an inbound line decodes to a NOTICE message. -/
def isNoticeLine (l : String) : Bool :=
  match Message.parse (ctcp_dequote (low_level_dequote l)) with
  | some m => decide (m.code = "NOTICE")
  | none => false

/-- `Client::handle_recv` on one `Recv` payload.  The result is the new
handler state, the lines written to the TCP stream by the callbacks, and the
message forwarded to the caller (`none` inside the option: line dropped on a
parse failure; outer `none`: a panic in `update_info` or in the 366 callback).
Crucially, `start_handler` hands `handle_recv` a clone of `realinfo`, so the
updated info `i'` is used only by the callbacks of this event and then
dropped: the state carried to the next event keeps the old info. -/
def handle_recv (s : String) (st : HandlerState) :
    Option (HandlerState × List String × Option Message) :=
  match Message.parse (ctcp_dequote (low_level_dequote s)) with
  | none => some (st, [], none)
  | some msg =>
    match st.info.update_infoP msg with
    | none => none
    | some i' =>
      let cb : Option (Bool × List String) :=
        if msg.code = "PING" then some (st.registered, [(Message.pong msg).raw])
        else if msg.code = "NOTICE" then
          if st.registered = false then some (true, [regline_nick i', regline_user i'])
          else some (st.registered, [])
        else if msg.code = "001" then
          some (st.registered, i'.channels.map (fun c => "JOIN " ++ c))
        else if msg.code = "353" then some (st.registered, [])
        else if msg.code = "366" then
          match msg.param 2 with
          | some _ => some (st.registered, [])
          | none => none
        else some (st.registered, [])
      match cb with
      | none => none
      | some (reg', ws) => some (⟨st.info, reg'⟩, ws, some msg)

/-- The dispatch loop restricted to a stream of inbound `Recv` payloads,
accumulating the written lines; a panic halts the session. -/
def runRecvs : HandlerState → List String → List String × HandlerState
  | st, [] => ([], st)
  | st, l :: rest =>
    match handle_recv l st with
    | none => ([], st)
    | some (st', ws, _) =>
      let r := runRecvs st' rest
      (ws ++ r.1, r.2)

/-! ### Helper lemmas -/

/-- Appending to a `String` appends the character lists. -/
theorem strData_append (a b : String) : (a ++ b).data = a.data ++ b.data := by
  rcases a with ⟨ad⟩
  rcases b with ⟨bd⟩
  rfl

/-- Head of a string starting with an explicit character. -/
theorem head_lit_append (c : Char) (rest : List Char) (b : String) :
    ((⟨c :: rest⟩ : String) ++ b).data.head? = some c := by
  rcases b with ⟨bd⟩
  rfl

/-- The head survives a further append. -/
theorem head_append_str (a b : String) (c : Char) (h : a.data.head? = some c) :
    (a ++ b).data.head? = some c := by
  rcases a with ⟨ad⟩
  rcases b with ⟨bd⟩
  cases ad with
  | nil => exact absurd h (by simp)
  | cons x xs => simpa using h

/-- Strings with distinct heads are distinct. -/
theorem ne_of_head (a b : String) (c d : Char) (ha : a.data.head? = some c)
    (hb : b.data.head? = some d) (hcd : c ≠ d) : a ≠ b := by
  intro h
  rw [h, hb] at ha
  exact hcd (Option.some.inj ha).symm

/-- `in_vec` finds nothing when the element is absent. -/
theorem in_vec_eq_none (l : List String) (a : String) (h : a ∉ l) : in_vec l a = none := by
  induction l with
  | nil => rfl
  | cons x xs ih =>
    have hxa : x ≠ a := by rintro rfl; exact h (List.mem_cons_self _ _)
    have hm : a ∉ xs := fun hx => h (List.mem_cons_of_mem _ hx)
    simp [in_vec, hxa, ih hm]

/-- Updating a present key makes lookup return the new value. -/
theorem alFind_alUpdate (k : String) (v w : List String) (l : List (String × List String))
    (h : alFind k l = some v) : alFind k (alUpdate k w l) = some w := by
  induction l with
  | nil => simp [alFind] at h
  | cons p rest ih =>
    by_cases hk : p.1 = k
    · simp [alFind, alUpdate, hk]
    · simp [alFind, alUpdate, hk] at h ⊢
      exact ih h

/-! ### C1 -/

/-- C1: refuted (code bug).  `start_handler` hands `handle_recv` a clone of
the dispatch loop's `ClientInfo`, so the side-effect table mutates a copy that
is dropped: after processing inbound `":bob!u@h JOIN #x"` with own nick
`alice`, the loop's state is bit-for-bit unchanged and the roster has no entry
for `"#x"` at all — in particular it does not contain `"bob"` as the claim
requires (the message is still forwarded). -/
theorem C1_dispatch_state_never_updated :
    handle_recv ":bob!u@h JOIN #x" ⟨IrcInfo.gen "alice" "alice" "Alice A" [], false⟩
      = some (⟨IrcInfo.gen "alice" "alice" "Alice A" [], false⟩, [],
              some ⟨Direction.Incoming, Source.Sender ":bob!u@h", "JOIN", "#x",
                    ":bob!u@h JOIN #x"⟩)
  ∧ (IrcInfo.gen "alice" "alice" "Alice A" []).get_channel_names "#x" = none := by
  decide

/-! ### C2 -/

/-- C2: counterexample.  For a parsed message with a prefix, `raw` (the
original line) differs from the fixed formatting rule applied to
`(source, code, params)`, because the captured prefix keeps its leading colon
and the rule prepends another one. -/
theorem C2_cex :
    Message.parse ":Lancey PRIVMSG Detective :Hello!"
      = some ⟨Direction.Incoming, Source.Sender ":Lancey", "PRIVMSG",
              "Detective :Hello!", ":Lancey PRIVMSG Detective :Hello!"⟩
  ∧ raw_from_data (Source.Sender ":Lancey") "PRIVMSG" "Detective :Hello!"
      ≠ ":Lancey PRIVMSG Detective :Hello!" := by
  decide

/-- C2 (amended): every constructor-built message has
`raw = raw_from_data (source, code, params)`, and every parsed message keeps
the original input line verbatim in `raw`; the formatting rule does not in
general reproduce a parsed raw line, since the parsed prefix retains its
leading colon. -/
theorem C2_raw_field :
    (∀ (src : Source) (cod prm : String), (Message.new src cod prm).raw = raw_from_data src cod prm)
  ∧ (∀ t body : String,
       (Message.privmsg t body).raw = raw_from_data Source.None "PRIVMSG" (t ++ " :" ++ body))
  ∧ (∀ m : Message, (Message.pong m).raw = raw_from_data Source.None "PONG" m.params)
  ∧ (∀ (line : String) (m : Message), Message.parse line = some m → m.raw = line) := by
  refine ⟨fun _ _ _ => rfl, fun _ _ => rfl, fun _ => rfl, fun line m h => ?_⟩
  cases hc : parseCaps line.data with
  | none => simp [Message.parse, hc] at h
  | some v =>
    obtain ⟨src, cod, prm⟩ := v
    simp only [Message.parse, hc] at h
    rw [← Option.some.inj h]

/-- C2 witness: the amended statement applied to a concrete parsed line. -/
theorem C2_raw_field_witness :
    (⟨Direction.Incoming, Source.None, "PING", "srv", "PING srv"⟩ : Message).raw = "PING srv" :=
  C2_raw_field.2.2.2 "PING srv"
    ⟨Direction.Incoming, Source.None, "PING", "srv", "PING srv"⟩ (by decide)

/-! ### C3 -/

/-- C3: refuted (code bug).  The dequote passes run in table order, so the
sentinel-doubling entry is reversed first; a collapsed sentinel can then merge
with a following escape letter.  `"\x14n"` quotes to `"\x14\x14n"` but
dequotes to `"\n"`, and `"\a"` (backslash, letter a) quotes to `"\\a"` but
dequotes to `"\x01"` — both round trips change the string, contradicting the
functions' own documentation ("the original String before quoting"). -/
theorem C3_dequote_breaks_roundtrip :
    low_level_dequote (low_level_quote "\x14n") = "\n"
  ∧ low_level_dequote (low_level_quote "\x14n") ≠ "\x14n"
  ∧ ctcp_dequote (ctcp_quote "\\a") = "\x01"
  ∧ ctcp_dequote (ctcp_quote "\\a") ≠ "\\a" := by
  decide

/-! ### C4 -/

/-- C4: counterexample.  `add_to_channel` pushes unconditionally, so adding a
nick twice yields a member list different from adding it once (a duplicate
entry appears). -/
theorem C4_cex :
    (((⟨"alice", "u", "r", [], [("#c", [])], []⟩ : IrcInfo).add_to_channel "#c" "bob").add_to_channel
        "#c" "bob").get_channel_names "#c"
      ≠ ((⟨"alice", "u", "r", [], [("#c", [])], []⟩ : IrcInfo).add_to_channel "#c"
          "bob").get_channel_names "#c" := by
  decide

/-- C4 (amended): removing an absent nick (or removing from an absent channel
list) leaves the info unchanged, but adding always appends the nick to the
channel's member list, so adding an already-present nick duplicates it instead
of being a no-op. -/
theorem C4_remove_noop_add_appends :
    (∀ (i : IrcInfo) (ch ni : String),
       alFind (strip_colon ch) i.names = none → i.remove_from_channel ch ni = i)
  ∧ (∀ (i : IrcInfo) (ch ni : String) (l : List String),
       alFind (strip_colon ch) i.names = some l → strip_colon ni ∉ l →
       i.remove_from_channel ch ni = i)
  ∧ (∀ (i : IrcInfo) (ch ni : String) (l : List String),
       alFind (strip_colon ch) i.names = some l →
       (i.add_to_channel ch ni).get_channel_names (strip_colon ch)
         = some (l ++ [strip_colon ni])) := by
  refine ⟨fun i ch ni h => ?_, fun i ch ni l h hm => ?_, fun i ch ni l h => ?_⟩
  · simp [IrcInfo.remove_from_channel, h]
  · simp [IrcInfo.remove_from_channel, h, in_vec_eq_none l (strip_colon ni) hm]
  · simp [IrcInfo.add_to_channel, h, IrcInfo.get_channel_names,
          alFind_alUpdate (strip_colon ch) l (l ++ [strip_colon ni]) i.names h]

/-- C4 witness: the amended statement applied to a concrete roster. -/
theorem C4_remove_noop_add_appends_witness :
    (⟨"a", "u", "r", [], [("#c", ["ann"])], []⟩ : IrcInfo).remove_from_channel "#c" "bob"
      = (⟨"a", "u", "r", [], [("#c", ["ann"])], []⟩ : IrcInfo)
  ∧ ((⟨"a", "u", "r", [], [("#c", ["ann"])], []⟩ : IrcInfo).add_to_channel "#c"
      "bob").get_channel_names (strip_colon "#c") = some (["ann"] ++ [strip_colon "bob"]) :=
  ⟨C4_remove_noop_add_appends.2.1 _ "#c" "bob" ["ann"] (by decide) (by decide),
   C4_remove_noop_add_appends.2.2 _ "#c" "bob" ["ann"] (by decide)⟩

/-! ### C5 -/

/-- C5: counterexample.  Five consecutive non-EOF read failures produce the
sleep sequence `5, 10, 20, 40` — four sleeps, not five: the fifth failure
raises the counter to the try limit and the loop breaks to the abort without
sleeping 80. -/
theorem C5_cex :
    (reader_start true (List.replicate 5 ReadEvent.otherErr)).sleeps = [5, 10, 20, 40]
  ∧ (reader_start true (List.replicate 5 ReadEvent.otherErr)).sleeps ≠ [5, 10, 20, 40, 80] := by
  decide

/-- C5 (amended): under five consecutive read failures the reader sleeps
`5, 10, 20, 40` and then emits `Abort` (the fifth failure reaches the retry
limit without a further sleep); after any successful, delivered read the next
failure's sleep is reset to 5 seconds. -/
theorem C5_backoff_sequence :
    reader_start true (List.replicate 5 ReadEvent.otherErr)
      = ⟨[5, 10, 20, 40], [ConnEvent.Abort "irc reader closed"], true⟩
  ∧ (∀ (tr : Nat) (time : Int) (l : String) (rest : List ReadEvent),
       (runLoop tr time (ReadEvent.okLine l true :: ReadEvent.otherErr :: rest)).sleeps
         = 5 :: (runLoop 1 10 rest).sleeps) := by
  refine ⟨by decide, fun tr time l rest => ?_⟩
  simp [runLoop, handle_read_success, handle_read_failure, get_next_try,
        IRC_TRY_SUCCESS, IRC_TRY_FAILURE, IRC_TRY_LIMIT, IRC_READ_TIMEOUT, IRC_READ_MULT]

/-! ### C9 -/

/-- C9: refuted (code bug).  The nick regex `:([\w]+?)` is lazy with nothing
after the capture, so it captures exactly one character: for the prefix
`":bob!u@h"` the extractor returns `"b"`, not the full nickname `"bob"`. -/
theorem C9_nick_returns_first_char :
    (Message.parse ":bob!u@h JOIN #x").map Message.nick = some (some "b")
  ∧ (Message.parse ":bob!u@h JOIN #x").map Message.nick ≠ some (some "bob") := by
  decide

/-! ### C10 -/

/-- C10: counterexample.  For a code outside the listed set (and not KICK),
`target` still returns `param(1)` — here `some "bar"` — instead of none. -/
theorem C10_cex : (Message.new Source.None "FOO" "bar").target ≠ none := by
  decide

/-- C10 (amended): `target` returns `param(2)` for KICK and `param(1)` for
every other code — including codes outside the conventional list, because the
wildcard arm of the match also returns `param(1)`. -/
theorem C10_target_default_is_param1 (m : Message) :
    m.target = if m.code = "KICK" then m.param 2 else m.param 1 := by
  unfold Message.target
  by_cases h : m.code ∈ targetCodes
  · have hk : m.code ≠ "KICK" := by
      rintro he
      rw [he] at h
      exact absurd h (by decide)
    simp [h, hk]
  · simp [h]

/-! ### C6 -/

/-- The last element of a list with an appended singleton. -/
theorem getLast_append_one {α : Type} (l : List α) (a : α) : (l ++ [a]).getLast? = some a := by
  induction l with
  | nil => rfl
  | cons x xs ih =>
    cases xs with
    | nil => rfl
    | cons y ys =>
      simp only [List.cons_append, List.getLast?_cons_cons] at ih ⊢
      exact ih

/-- C6: counterexample.  A failed peer check makes `start` return before the
read loop: the reader terminates having emitted no event at all, in particular
no `Abort`. -/
theorem C6_cex : reader_start false [] = ⟨[], [], true⟩ := by
  decide

/-- C6 (amended): whenever the reader terminates by exiting its read loop
(retry limit, end-of-stream, channel failure) the last event it emitted is the
`Abort`; but when the peer check fails, `start` returns before the loop and no
event — in particular no `Abort` — is ever emitted. -/
theorem C6_abort_only_after_loop :
    (∀ evs : List ReadEvent, (reader_start true evs).finished = true →
       (reader_start true evs).events.getLast? = some (ConnEvent.Abort "irc reader closed"))
  ∧ (∀ evs : List ReadEvent, reader_start false evs = ⟨[], [], true⟩) := by
  constructor
  · intro evs h
    by_cases hf : (runLoop IRC_TRY_SUCCESS IRC_READ_TIMEOUT evs).finished
    · simp only [reader_start, Bool.not_true, Bool.false_eq_true, if_false, hf, if_true]
      exact getLast_append_one _ _
    · simp only [reader_start, Bool.not_true, Bool.false_eq_true, if_false, hf, if_false] at h
  · intro evs
    rfl

/-- C6 witness: the amended statement applied to a stream that ends at once. -/
theorem C6_abort_only_after_loop_witness :
    (reader_start true [ReadEvent.eofErr]).events.getLast?
      = some (ConnEvent.Abort "irc reader closed") :=
  C6_abort_only_after_loop.1 [ReadEvent.eofErr] (by decide)

/-! ### C7 -/

/-- C7: counterexample.  Three inputs on which the core aborts the process:
`is_public` hits `expect("bad message")` on a targetless PRIVMSG,
`update_info` hits `unwrap()` on a channel-error message with no parameters,
and a failed TCP connect runs `panic!("connection failure is not
implemented")`. -/
theorem C7_cex :
    Message.is_publicP (Message.new Source.None "PRIVMSG" "") = none
  ∧ (IrcInfo.gen "n" "u" "r" []).update_infoP (Message.new Source.None "403" "") = none
  ∧ ServerConnection.connectP "pw" false = none := by
  decide

/-- C7 (amended): the core does abort the process on the inputs the claim
lists as safe: a failed TCP connect panics, `is_public` panics on every
PRIVMSG/NOTICE whose params yield no first parameter, and `update_info` panics
on every channel-error message with a missing first parameter. -/
theorem C7_panic_paths :
    (∀ pass : String, ServerConnection.connectP pass false = none)
  ∧ (∀ m : Message, m.is_message = true → m.param 1 = none → Message.is_publicP m = none)
  ∧ (∀ (i : IrcInfo) (m : Message), m.code ∈ chanErrCodes → m.param 1 = none →
       i.update_infoP m = none) := by
  refine ⟨fun pass => rfl, fun m hm hp => ?_, fun i m hc hp => ?_⟩
  · have hcode : m.code = "PRIVMSG" ∨ m.code = "NOTICE" := by
      simpa [Message.is_message, decide_eq_true_eq] using hm
    have hmem : m.code ∈ targetCodes := by
      rcases hcode with h | h <;> simp [targetCodes, h]
    have ht : m.target = none := by
      simp [Message.target, hmem, hp]
    simp [Message.is_publicP, hm, ht]
  · have h1 : m.code ≠ "NICK" := by rintro he; rw [he] at hc; exact absurd hc (by decide)
    have h2 : m.code ≠ "JOIN" := by rintro he; rw [he] at hc; exact absurd hc (by decide)
    have h3 : m.code ≠ "PART" := by rintro he; rw [he] at hc; exact absurd hc (by decide)
    simp [IrcInfo.update_infoP, h1, h2, h3, hc, hp]

/-- C7 witness: the amended statement applied to concrete panicking inputs. -/
theorem C7_panic_paths_witness :
    ServerConnection.connectP "hunter2" false = none
  ∧ Message.is_publicP (Message.new Source.None "NOTICE" "") = none
  ∧ (IrcInfo.gen "n" "u" "r" ["#a"]).update_infoP (Message.new Source.None "471" "") = none :=
  ⟨C7_panic_paths.1 "hunter2",
   C7_panic_paths.2.1 _ (by decide) (by decide),
   C7_panic_paths.2.2 _ _ (by decide) (by decide)⟩

/-! ### C8 -/

/-- Head of the NICK registration line. -/
theorem regline_nick_head (i : IrcInfo) : (regline_nick i).data.head? = some 'N' :=
  head_append_str "NICK " i.nick_name 'N' rfl

/-- Head of the USER registration line. -/
theorem regline_user_head (i : IrcInfo) : (regline_user i).data.head? = some 'U' :=
  head_append_str _ i.real_name 'U'
    (head_append_str _ " * * :" 'U' (head_append_str "USER " i.user_name 'U' rfl))

/-- A line whose head is neither `N` nor `U` is not a registration line. -/
theorem isRegLine_false_of_head (i : IrcInfo) (s : String) (c : Char)
    (hs : s.data.head? = some c) (h1 : c ≠ 'N') (h2 : c ≠ 'U') : isRegLine i s = false := by
  unfold isRegLine
  rw [decide_eq_false_iff_not]
  rintro (h | h)
  · exact (ne_of_head s (regline_nick i) c 'N' hs (regline_nick_head i) h1) h
  · exact (ne_of_head s (regline_user i) c 'U' hs (regline_user_head i) h2) h

/-- A PONG response is never a registration line. -/
theorem pong_raw_not_regline (i : IrcInfo) (m : Message) :
    isRegLine i (Message.pong m).raw = false :=
  isRegLine_false_of_head i _ 'P' (head_append_str ("PONG" ++ " ") m.params 'P' rfl)
    (by decide) (by decide)

/-- A JOIN command line is never a registration line. -/
theorem join_line_not_regline (i : IrcInfo) (c : String) :
    isRegLine i ("JOIN " ++ c) = false :=
  isRegLine_false_of_head i _ 'J' (head_append_str "JOIN " c 'J' rfl) (by decide) (by decide)

/-- The registration pair passes its own filter untouched. -/
theorem filter_reg_pair (i : IrcInfo) :
    [regline_nick i, regline_user i].filter (isRegLine i) = [regline_nick i, regline_user i] := by
  simp [isRegLine]

/-- `update_info` leaves the info unchanged on codes outside its match arms. -/
theorem update_infoP_other (i : IrcInfo) (m : Message) (h1 : m.code ≠ "NICK")
    (h2 : m.code ≠ "JOIN") (h3 : m.code ≠ "PART") (h4 : m.code ∉ chanErrCodes) :
    i.update_infoP m = some i := by
  simp [IrcInfo.update_infoP, h1, h2, h3, h4]

/-- Case analysis of one dispatch step: either it panics, or it keeps the info
(the clone is dropped), sets `registered` exactly when an unhandled NOTICE
arrives, and writes registration lines exactly on a first NOTICE. -/
theorem handle_recv_cases (i : IrcInfo) (reg : Bool) (l : String) :
    handle_recv l ⟨i, reg⟩ = none
  ∨ ∃ ws fwd, handle_recv l ⟨i, reg⟩ = some (⟨i, reg || isNoticeLine l⟩, ws, fwd)
      ∧ ws.filter (isRegLine i)
          = (if reg = false ∧ isNoticeLine l = true then [regline_nick i, regline_user i] else [])
      ∧ (reg = false → isNoticeLine l = true → ws = [regline_nick i, regline_user i]) := by
  cases hp : Message.parse (ctcp_dequote (low_level_dequote l)) with
  | none =>
    right
    refine ⟨[], none, ?_, ?_, ?_⟩
    · simp [handle_recv, isNoticeLine, hp]
    · simp [isNoticeLine, hp]
    · intro _ hn
      rw [isNoticeLine, hp] at hn
      cases hn
  | some msg =>
    have hnl : isNoticeLine l = decide (msg.code = "NOTICE") := by
      simp [isNoticeLine, hp]
    cases hu : i.update_infoP msg with
    | none =>
      left
      simp [handle_recv, hp, hu]
    | some i' =>
      by_cases hping : msg.code = "PING"
      · have hnl' : isNoticeLine l = false := by
          rw [hnl, hping]; decide
        right
        refine ⟨[(Message.pong msg).raw], some msg, ?_, ?_, ?_⟩
        · rw [hnl']
          simp [handle_recv, hp, hu, hping]
        · rw [hnl']
          simp [pong_raw_not_regline]
        · intro _ hn
          rw [hnl'] at hn
          cases hn
      · by_cases hnot : msg.code = "NOTICE"
        · have hi' : i' = i := by
            have h := update_infoP_other i msg (by rw [hnot]; decide) (by rw [hnot]; decide)
              (by rw [hnot]; decide) (by rw [hnot]; decide)
            rw [h] at hu
            exact (Option.some.inj hu).symm
          have hnl' : isNoticeLine l = true := by
            rw [hnl, hnot]; decide
          right
          cases hreg : reg with
          | false =>
            refine ⟨[regline_nick i, regline_user i], some msg, ?_, ?_, ?_⟩
            · rw [hnl']
              simp [handle_recv, hp, hu, hping, hnot, hi']
            · rw [hnl']
              simp [filter_reg_pair]
            · intro _ _
              rfl
          | true =>
            refine ⟨[], some msg, ?_, ?_, ?_⟩
            · rw [hnl']
              simp [handle_recv, hp, hu, hping, hnot]
            · rw [hnl']
              simp
            · intro hfalse _
              cases hfalse
        · have hnl' : isNoticeLine l = false := by
            rw [hnl]
            simp [hnot]
          by_cases h001 : msg.code = "001"
          · right
            refine ⟨i'.channels.map (fun c => "JOIN " ++ c), some msg, ?_, ?_, ?_⟩
            · rw [hnl']
              simp [handle_recv, hp, hu, hping, hnot, h001]
            · rw [hnl']
              simp only [Bool.false_eq_true, and_false, if_false]
              rw [List.filter_eq_nil_iff]
              intro a ha
              obtain ⟨c, _, rfl⟩ := List.mem_map.mp ha
              simp [join_line_not_regline]
            · intro _ hn
              rw [hnl'] at hn
              cases hn
          · by_cases h353 : msg.code = "353"
            · right
              refine ⟨[], some msg, ?_, ?_, ?_⟩
              · rw [hnl']
                simp [handle_recv, hp, hu, hping, hnot, h001, h353]
              · rw [hnl']
                simp
              · intro _ hn
                rw [hnl'] at hn
                cases hn
            · by_cases h366 : msg.code = "366"
              · cases hp2 : msg.param 2 with
                | none =>
                  left
                  simp [handle_recv, hp, hu, hping, hnot, h001, h353, h366, hp2]
                | some t =>
                  right
                  refine ⟨[], some msg, ?_, ?_, ?_⟩
                  · rw [hnl']
                    simp [handle_recv, hp, hu, hping, hnot, h001, h353, h366, hp2]
                  · rw [hnl']
                    simp
                  · intro _ hn
                    rw [hnl'] at hn
                    cases hn
              · right
                refine ⟨[], some msg, ?_, ?_, ?_⟩
                · rw [hnl']
                  simp [handle_recv, hp, hu, hping, hnot, h001, h353, h366]
                · rw [hnl']
                  simp
                · intro _ hn
                  rw [hnl'] at hn
                  cases hn

/-- Session invariant: the dispatch loop's info never changes, the filtered
registration output is the pair exactly when the final flag is set starting
from unregistered, and the flag never falls back once set. -/
theorem runRecvs_spec (i : IrcInfo) (lines : List String) : ∀ reg : Bool,
    (runRecvs ⟨i, reg⟩ lines).2.info = i
  ∧ ((runRecvs ⟨i, reg⟩ lines).1.filter (isRegLine i)
      = if reg then []
        else if (runRecvs ⟨i, reg⟩ lines).2.registered then [regline_nick i, regline_user i]
        else [])
  ∧ (reg = true → (runRecvs ⟨i, reg⟩ lines).2.registered = true) := by
  induction lines with
  | nil =>
    intro reg
    refine ⟨rfl, ?_, fun h => h⟩
    cases reg <;> simp [runRecvs]
  | cons l rest ih =>
    intro reg
    rcases handle_recv_cases i reg l with hnone | ⟨ws, fwd, heq, hfil, _⟩
    · rw [show runRecvs ⟨i, reg⟩ (l :: rest) = ([], ⟨i, reg⟩) from by
        simp [runRecvs, hnone]]
      refine ⟨rfl, ?_, fun h => h⟩
      cases reg <;> simp
    · simp only [runRecvs, heq]
      cases reg with
      | true =>
        obtain ⟨ih1, ih2, ih3⟩ := ih (true || isNoticeLine l)
        have hr : (runRecvs ⟨i, true || isNoticeLine l⟩ rest).2.registered = true :=
          ih3 (by simp)
        refine ⟨ih1, ?_, fun _ => hr⟩
        rw [List.filter_append, hfil, ih2]
        simp
      | false =>
        obtain ⟨ih1, ih2, ih3⟩ := ih (false || isNoticeLine l)
        cases hn : isNoticeLine l with
        | true =>
          rw [hn] at ih1 ih2 ih3 hfil
          simp only [Bool.false_or] at *
          have hr := ih3 trivial
          refine ⟨ih1, ?_, fun h => (Bool.false_ne_true h).elim⟩
          rw [List.filter_append, hfil, ih2]
          simp [hr]
        | false =>
          rw [hn] at ih1 ih2 ih3 hfil
          simp only [Bool.false_or] at *
          refine ⟨ih1, ?_, fun h => (Bool.false_ne_true h).elim⟩
          rw [List.filter_append, hfil, ih2]
          simp

/-- C8: confirmed.  Starting unregistered, a session of inbound lines emits
the registration lines `NICK <nick>` and `USER <user> * * :<realname>` exactly
once and in that order — precisely when some NOTICE was processed (the final
flag records this); once registered no session ever emits either line again
and the flag never returns to false; and the event that performs the emission
is exactly the first NOTICE, whose write list is precisely the ordered pair. -/
theorem C8_registration_once (i : IrcInfo) (lines : List String) :
    ((runRecvs ⟨i, false⟩ lines).1.filter (isRegLine i)
        = if (runRecvs ⟨i, false⟩ lines).2.registered then [regline_nick i, regline_user i]
          else [])
  ∧ ((runRecvs ⟨i, true⟩ lines).1.filter (isRegLine i) = [])
  ∧ ((runRecvs ⟨i, true⟩ lines).2.registered = true)
  ∧ (∀ (l : String) (st' : HandlerState) (ws : List String) (fwd : Option Message),
       isNoticeLine l = true →
       handle_recv l ⟨i, false⟩ = some (st', ws, fwd) →
       ws = [regline_nick i, regline_user i] ∧ st'.registered = true) := by
  refine ⟨?_, ?_, ?_, ?_⟩
  · have h := (runRecvs_spec i lines false).2.1
    simpa using h
  · have h := (runRecvs_spec i lines true).2.1
    simpa using h
  · exact (runRecvs_spec i lines true).2.2 rfl
  · intro l st' ws fwd hN heq
    rcases handle_recv_cases i false l with hnone | ⟨ws', fwd', heq', _, hws'⟩
    · rw [hnone] at heq
      cases heq
    · rw [heq'] at heq
      have h1 := Option.some.inj heq
      have hws : ws' = ws := congrArg (fun p => p.2.1) h1
      have hst : (⟨i, false || isNoticeLine l⟩ : HandlerState) = st' := congrArg Prod.fst h1
      constructor
      · rw [← hws]
        exact hws' rfl hN
      · rw [← hst, hN]
        rfl

/-- C8 witness: a concrete three-line session (NOTICE, PING, NOTICE) emits the
two registration lines exactly once, and the first NOTICE event's write list
is exactly the ordered pair. -/
theorem C8_registration_once_witness :
    (runRecvs ⟨IrcInfo.gen "alice" "u" "r" [], false⟩
        ["NOTICE * :hi", "PING srv", "NOTICE * :again"]).1.filter
        (isRegLine (IrcInfo.gen "alice" "u" "r" []))
      = ["NICK alice", "USER u * * :r"]
  ∧ ["NICK alice", "USER u * * :r"]
      = [regline_nick (IrcInfo.gen "alice" "u" "r" []),
         regline_user (IrcInfo.gen "alice" "u" "r" [])] := by
  have h := C8_registration_once (IrcInfo.gen "alice" "u" "r" [])
    ["NOTICE * :hi", "PING srv", "NOTICE * :again"]
  have hev := (h.2.2.2 "NOTICE * :hi"
    ⟨IrcInfo.gen "alice" "u" "r" [], true⟩ ["NICK alice", "USER u * * :r"]
    (some ⟨Direction.Incoming, Source.None, "NOTICE", "* :hi", "NOTICE * :hi"⟩)
    (by decide) (by decide)).1
  refine ⟨?_, hev⟩
  rw [h.1]
  decide
